import Mathlib

/-!
Verification of the Task Description Parser and Environment-Contract
Generator of the osrs-pvp-reinforcement-learning GUI repository
(`osrs_rl_gui/tasks/task_system.py`, `osrs_rl_gui/core/environment_factory.py`,
`osrs_rl_gui/core/task_training_integrator.py`, `osrs_rl_gui/core/config_manager.py`).

The Python code is shallowly embedded: strings are lists of characters,
Python dictionaries are association lists with Python assignment semantics
(overwrite in place, append new keys at the end), fallible code returns
`Except`, and the two float category multipliers 1.2 and 0.8 are modelled
as the exact rationals 6/5 and 4/5 (for these multipliers and for every
objective count below 2^40 the IEEE-754 double computation of
`int(1000 * count * multiplier)` is exact, so the rational model agrees
with CPython).  Character classes (`\s`, `\d`, `[a-z]`) and `str.lower`
are modelled at the ASCII level, matching CPython on ASCII input.

The two objective regexes, the requirement regexes, and `re.findall`'s
leftmost, non-overlapping, greedy/lazy backtracking semantics are embedded
by dedicated matchers; each matcher was derived from the pattern in the
source and the embedding reproduces CPython's `re.findall` output on the
inputs used below (including the backtracking corner cases).
-/

namespace OsrsRl

/-- Python whitespace for `str.strip`, `str.split` and the regex class
backslash-s (ASCII): space, tab, newline, carriage return, vertical tab,
form feed. -/
def pyIsSpace (c : Char) : Bool :=
  c.toNat = 32 || c.toNat = 9 || c.toNat = 10 || c.toNat = 13 ||
  c.toNat = 11 || c.toNat = 12

/-- ASCII decimal digit, the regex class backslash-d on ASCII input. -/
def pyIsDigit (c : Char) : Bool :=
  48 ≤ c.toNat && c.toNat ≤ 57

/-- ASCII lower-case letter, the regex class `[a-z]`. -/
def pyIsLower (c : Char) : Bool :=
  97 ≤ c.toNat && c.toNat ≤ 122

/-- The regex class `[a-z\s]` used by the objective patterns. -/
def pyIsClass (c : Char) : Bool :=
  pyIsLower c || pyIsSpace c

/-- ASCII `str.lower` on one character. -/
def pyToLower (c : Char) : Char :=
  if 65 ≤ c.toNat ∧ c.toNat ≤ 90 then Char.ofNat (c.toNat + 32) else c

/-- ASCII upper-casing of one character (used by `str.capitalize` /
`str.title`). -/
def pyToUpper (c : Char) : Char :=
  if 97 ≤ c.toNat ∧ c.toNat ≤ 122 then Char.ofNat (c.toNat - 32) else c

/-- Python `str.strip()`: remove leading and trailing whitespace. -/
def pyStrip (l : List Char) : List Char :=
  ((l.dropWhile pyIsSpace).reverse.dropWhile pyIsSpace).reverse

/-- Helper for `pySplit`; `acc` holds the current word reversed. -/
def pySplitAux : List Char → List Char → List (List Char)
  | [], acc => if acc = [] then [] else [acc.reverse]
  | c :: t, acc =>
    if pyIsSpace c then
      if acc = [] then pySplitAux t [] else acc.reverse :: pySplitAux t []
    else pySplitAux t (c :: acc)

/-- Python `str.split()` with no separator: split on whitespace runs,
dropping empty words. -/
def pySplit (l : List Char) : List (List Char) :=
  pySplitAux l []

/-- Python substring containment `pat in s`. -/
def pySub (pat : List Char) : List Char → Bool
  | [] => pat.isEmpty
  | c :: t => pat.isPrefixOf (c :: t) || pySub pat t

/-- Numeric value of a digit string. -/
def natOfDigits (l : List Char) : Nat :=
  l.foldl (fun n c => 10 * n + (c.toNat - 48)) 0

/-- Python `int(str)`: strips whitespace, allows one sign, then requires a
non-empty digit string; raises `ValueError` otherwise. -/
def pyInt (l : List Char) : Except String Int :=
  match pyStrip l with
  | '-' :: rest =>
    if rest ≠ [] ∧ rest.all pyIsDigit then .ok (-(natOfDigits rest : Int))
    else .error "ValueError"
  | '+' :: rest =>
    if rest ≠ [] ∧ rest.all pyIsDigit then .ok (natOfDigits rest : Int)
    else .error "ValueError"
  | s =>
    if s ≠ [] ∧ s.all pyIsDigit then .ok (natOfDigits s : Int)
    else .error "ValueError"

/-- Python `str.capitalize()`: first character upper-cased, the rest
lower-cased. -/
def pyCapitalize : List Char → List Char
  | [] => []
  | c :: t => pyToUpper c :: t.map pyToLower

/-- Helper for `pyTitle`: `prevAlpha` records whether the previous
character was a letter. -/
def pyTitleAux : Bool → List Char → List Char
  | _, [] => []
  | prevAlpha, c :: t =>
    let isAlpha := pyIsLower c || (65 ≤ c.toNat && c.toNat ≤ 90)
    (if isAlpha then (if prevAlpha then pyToLower c else pyToUpper c) else c)
      :: pyTitleAux isAlpha t

/-- Python `str.title()` restricted to ASCII letters. -/
def pyTitle (l : List Char) : List Char :=
  pyTitleAux false l

/-- Python `str.replace(old, new)` for single characters. -/
def pyReplaceChar (old new : Char) (l : List Char) : List Char :=
  l.map fun c => if c = old then new else c

/-- Python `str.replace(old, "")` for a single character. -/
def pyRemoveChar (old : Char) (l : List Char) : List Char :=
  l.filter fun c => c ≠ old

/-- Python `$` in default mode: matches at the end of the string or just
before one trailing newline. -/
def pyAtEnd : List Char → Bool
  | [] => true
  | [c] => c = '\n'
  | _ => false

/-- First alternative of a regex alternation of literals that is a prefix
of `s`, together with the remaining input.  (For every alternation in the
source no alternative is a prefix of another, so at most one can match at
a given position and alternation backtracking cannot arise.) -/
def splitPrefixOfAny : List (List Char) → List Char → Option (List Char × List Char)
  | [], _ => none
  | v :: vs, s =>
    if v.isPrefixOf s then some (v, s.drop v.length) else splitPrefixOfAny vs s

/-- `re.findall` driver with explicit fuel: at each position try the
matcher; on success emit the groups and resume after the match, otherwise
advance one character.  Every matcher below consumes at least one
character, so fuel `s.length + 1` (used by `reFindAll`) never runs out;
`reFindAll_fuel_irrelevant` below makes that precise. -/
def reFindAllAux (m : List Char → Option (γ × List Char)) :
    Nat → List Char → List γ
  | 0, _ => []
  | _ + 1, [] => []
  | fuel + 1, c :: t =>
    match m (c :: t) with
    | some (g, rest) => g :: reFindAllAux m fuel rest
    | none => reFindAllAux m fuel t

/-- `re.findall pattern s` for the matcher `m` embedding `pattern`. -/
def reFindAll (m : List Char → Option (γ × List Char)) (s : List Char) : List γ :=
  reFindAllAux m (s.length + 1) s

/-- The eight action verbs of the first objective pattern, in alternation
order. -/
def p1Verbs : List (List Char) :=
  ["kill".data, "mine".data, "cut".data, "cook".data, "craft".data,
   "make".data, "get".data, "obtain".data]

/-- The six past-tense verbs of the second objective pattern, in
alternation order. -/
def p2Verbs : List (List Char) :=
  ["killed".data, "mined".data, "cut".data, "cooked".data, "crafted".data,
   "made".data]

/-- One attempted match of
`(kill|mine|cut|cook|craft|make|get|obtain)\s+(\d+)\s+([a-z\s]+)`
anchored at the start of `s`; returns the three groups and the input after
the match.  The only backtracking the pattern admits is between the final
greedy `\s+` and `[a-z\s]+` (whose class contains whitespace): when no
class character follows the whitespace run, the run cedes its last
character to the group (possible only when the run has length at least
two). -/
def matchP1 (s : List Char) :
    Option ((List Char × List Char × List Char) × List Char) :=
  match splitPrefixOfAny p1Verbs s with
  | none => none
  | some (v, s1) =>
    let w1 := s1.takeWhile pyIsSpace
    if w1 = [] then none else
    let s2 := s1.drop w1.length
    let ds := s2.takeWhile pyIsDigit
    if ds = [] then none else
    let s3 := s2.drop ds.length
    let w2 := s3.takeWhile pyIsSpace
    if w2 = [] then none else
    let s4 := s3.drop w2.length
    let tg := s4.takeWhile pyIsClass
    if tg = [] then
      if 2 ≤ w2.length then some ((v, ds, w2.drop (w2.length - 1)), s4)
      else none
    else some ((v, ds, tg), s4.drop tg.length)

/-- `re.findall` for the first objective pattern; each element is the
group triple (verb, digits, target). -/
def findAllP1 (s : List Char) : List (List Char × List Char × List Char) :=
  reFindAll matchP1 s

/-- For the second objective pattern: try to place `\s+(verb)` at offset
`j` of `v` (the text after the leading `\d+\s+`); the whitespace run is
maximal because the verbs start with letters. -/
def p2Tail (v : List Char) (j : Nat) : Option (Nat × Nat × List Char) :=
  let r := v.drop j
  let w := r.takeWhile pyIsSpace
  if w = [] then none else
  match splitPrefixOfAny p2Verbs (r.drop w.length) with
  | some (vb, _) => some (j, w.length, vb)
  | none => none

/-- Greedy backtracking of the group `[a-z\s]+`: largest offset
`j ∈ [1, bound]` at which `\s+(verb)` matches. -/
def p2Best (v : List Char) : Nat → Option (Nat × Nat × List Char)
  | 0 => none
  | j + 1 =>
    match p2Tail v (j + 1) with
    | some x => some x
    | none => p2Best v j

/-- One attempted match of
`(\d+)\s+([a-z\s]+)\s+(killed|mined|cut|cooked|crafted|made)` anchored at
the start of `s`.  `\d+` and the first `\s+` are effectively maximal
(digits cannot feed `\s+`, and ceding whitespace to the group creates no
new tail positions, except for the one case below).  With `v` the text
after them and `M` its maximal `[a-z\s]` prefix, the group is `v.take j`
for the largest workable `j ≤ M.length`; when no such `j` exists but the
leading whitespace run `W` has length at least three and a verb starts
`v` directly, the run is split into `\s+`, a one-character group, and
`\s+` (the backtracking case observed in CPython on `"10   killed"`). -/
def matchP2 (s : List Char) :
    Option ((List Char × List Char × List Char) × List Char) :=
  let ds := s.takeWhile pyIsDigit
  if ds = [] then none else
  let u := s.drop ds.length
  let w := u.takeWhile pyIsSpace
  if w = [] then none else
  let v := u.drop w.length
  let m := v.takeWhile pyIsClass
  match p2Best v m.length with
  | some (j, wl, vb) => some ((ds, v.take j, vb), v.drop (j + wl + vb.length))
  | none =>
    if 3 ≤ w.length then
      match splitPrefixOfAny p2Verbs v with
      | some (vb, r) => some ((ds, (w.drop (w.length - 2)).take 1, vb), r)
      | none => none
    else none

/-- `re.findall` for the second objective pattern; each element is the
group triple (digits, phrase, past-tense verb). -/
def findAllP2 (s : List Char) : List (List Char × List Char × List Char) :=
  reFindAll matchP2 s

/-- One attempted match of the requirement pattern
`(\d+)\s+([a-z]+)\s+(?:level|skill)` anchored at the start of `s`;
no backtracking is possible because the classes of adjacent pieces are
disjoint. -/
def matchLvl (s : List Char) : Option ((List Char × List Char) × List Char) :=
  let ds := s.takeWhile pyIsDigit
  if ds = [] then none else
  let u := s.drop ds.length
  let w := u.takeWhile pyIsSpace
  if w = [] then none else
  let v := u.drop w.length
  let sk := v.takeWhile pyIsLower
  if sk = [] then none else
  let r := v.drop sk.length
  let w2 := r.takeWhile pyIsSpace
  if w2 = [] then none else
  match splitPrefixOfAny ["level".data, "skill".data] (r.drop w2.length) with
  | some (_, rest) => some ((ds, sk), rest)
  | none => none

/-- `re.findall` for the skill-level requirement pattern; elements are
(digits, skill-name) pairs. -/
def findAllLvl (s : List Char) : List (List Char × List Char) :=
  reFindAll matchLvl s

/-- The tail `(?:\s+(?:and|or|,)|$)` of the item pattern, attempted at
`r`: first the `\s+(and|or|,)` branch (whitespace maximal, since the
literals start with non-whitespace), then the zero-width `$`.  Returns the
number of characters consumed. -/
def itemTail (r : List Char) : Option Nat :=
  let w := r.takeWhile pyIsSpace
  if w ≠ [] then
    match splitPrefixOfAny ["and".data, "or".data, ",".data] (r.drop w.length) with
    | some (lit, _) => some (w.length + lit.length)
    | none => if pyAtEnd r then some 0 else none
  else if pyAtEnd r then some 0 else none

/-- Lazy expansion of `([a-z\s]+?)` starting at `start`: the smallest
`k ≥ 1` within the `[a-z\s]` prefix such that the tail matches at
`start.drop k`; `rem` is the number of candidates left to try. -/
def itemLazy (start : List Char) : Nat → Nat → Option (Nat × Nat)
  | _, 0 => none
  | k, rem + 1 =>
    match itemTail (start.drop k) with
    | some tl => some (k, tl)
    | none => itemLazy start (k + 1) rem

/-- Backtracking of the leading greedy `\s+` of the item pattern: try
`w1 = n, n-1, …, 1` whitespace characters, with the lazy group starting
right after. -/
def itemW (s1 : List Char) : Nat → Option (List Char × List Char)
  | 0 => none
  | n + 1 =>
    let start := s1.drop (n + 1)
    match itemLazy start 1 (start.takeWhile pyIsClass).length with
    | some (k, tl) => some (start.take k, start.drop (k + tl))
    | none => itemW s1 n

/-- One attempted match of the requirement pattern
`(?:need|require|bring|have)\s+([a-z\s]+?)(?:\s+(?:and|or|,)|$)` anchored
at the start of `s`; returns the captured phrase and the rest of the
input. -/
def matchItem (s : List Char) : Option (List Char × List Char) :=
  match splitPrefixOfAny ["need".data, "require".data, "bring".data, "have".data] s with
  | none => none
  | some (_, s1) =>
    let w := s1.takeWhile pyIsSpace
    if w = [] then none else itemW s1 w.length

/-- `re.findall` for the item requirement pattern; with a single capture
group `findall` returns the group's strings. -/
def findAllItem (s : List Char) : List (List Char) :=
  reFindAll matchItem s

/-! ## Task data model (`tasks/task_system.py`) -/

/-- `TaskCategory` enumeration. -/
inductive TaskCategory
  | combat
  | skilling
  | questing
  | trading
  | exploration
  | pvp
  | unknown
  deriving DecidableEq, Repr

/-- The `.value` string of a `TaskCategory` member. -/
def TaskCategory.value : TaskCategory → String
  | .combat => "combat"
  | .skilling => "skilling"
  | .questing => "questing"
  | .trading => "trading"
  | .exploration => "exploration"
  | .pvp => "pvp"
  | .unknown => "unknown"

/-- `TaskDifficulty` enumeration. -/
inductive TaskDifficulty
  | beginner
  | intermediate
  | advanced
  | expert
  deriving DecidableEq, Repr

/-- The `.value` string of a `TaskDifficulty` member. -/
def TaskDifficulty.value : TaskDifficulty → String
  | .beginner => "beginner"
  | .intermediate => "intermediate"
  | .advanced => "advanced"
  | .expert => "expert"

/-- `TaskObjective` dataclass.  The quantity is a Python `int`, hence `Int`. -/
structure TaskObjective where
  description : String
  target : String
  quantity : Int := 1
  location : Option String := none
  completed : Bool := false
  deriving DecidableEq, Repr

/-- `TaskRequirement` dataclass; `skill_levels` is a dict embedded as an
association list in insertion order. -/
structure TaskRequirement where
  skill_levels : List (String × Int)
  items : List String
  quests_completed : List String
  combat_level : Option Int := none
  deriving DecidableEq, Repr

/-- `Task` dataclass after `__post_init__` (so `reward_xp` and
`reward_items` are already the empty containers rather than `None`). -/
structure Task where
  name : String
  description : String
  category : TaskCategory
  difficulty : TaskDifficulty
  objectives : List TaskObjective
  requirements : TaskRequirement
  estimated_duration : Option Int := none
  reward_xp : List (String × Int) := []
  reward_items : List String := []
  deriving DecidableEq, Repr

/-! ## TaskParser (`tasks/task_system.py`) -/

/-- `TaskParser._combat_keywords`. -/
def combatKeywords : List (List Char) :=
  ["fight".data, "kill".data, "attack".data, "combat".data, "battle".data,
   "pvp".data, "pvm".data, "monster".data, "boss".data, "dragon".data,
   "demon".data, "giant".data, "warrior".data]

/-- `TaskParser._skilling_keywords`. -/
def skillingKeywords : List (List Char) :=
  ["mine".data, "cut".data, "fish".data, "cook".data, "craft".data,
   "smith".data, "make".data, "create".data, "train".data, "level".data,
   "xp".data, "experience".data, "skill".data]

/-- `TaskParser._skill_keywords` (the 23 canonical skill names). -/
def skillKeywords : List (List Char) :=
  ["attack".data, "defence".data, "strength".data, "hitpoints".data,
   "ranged".data, "prayer".data, "magic".data, "cooking".data,
   "woodcutting".data, "fletching".data, "fishing".data, "firemaking".data,
   "crafting".data, "smithing".data, "mining".data, "herblore".data,
   "agility".data, "thieving".data, "slayer".data, "farming".data,
   "runecraft".data, "hunter".data, "construction".data]

/-- `TaskParser._determine_category`: word-set intersection against the
combat then skilling keyword sets, then substring checks, in the priority
order of the source. -/
def determineCategory (d : List Char) : TaskCategory :=
  let words := pySplit d
  if words.any (fun w => combatKeywords.contains w) then .combat
  else if words.any (fun w => skillingKeywords.contains w) then .skilling
  else if pySub "quest".data d then .questing
  else if ["buy".data, "sell".data, "trade".data, "exchange".data].any
      (fun w => pySub w d) then .trading
  else if ["explore".data, "find".data, "locate".data, "go to".data].any
      (fun w => pySub w d) then .exploration
  else if pySub "pvp".data d ||
      (pySub "player".data d && pySub "kill".data d) then .pvp
  else .unknown

/-- Build one `TaskObjective` from a three-group `findall` match exactly
as the loop body of `_extract_objectives` does: the groups are unpacked
positionally as (action, quantity, target) and `int(quantity)` may raise
`ValueError` (it always does for second-pattern matches, whose middle
group is the `[a-z\s]+` phrase). -/
def objectiveOfMatch (g : List Char × List Char × List Char) :
    Except String TaskObjective :=
  match pyInt g.2.1 with
  | .error e => .error e
  | .ok q =>
    .ok { description :=
            String.mk (pyStrip (g.1 ++ [' '] ++ g.2.1 ++ [' '] ++ g.2.2))
          target := String.mk (pyStrip g.2.2)
          quantity := q }

/-- Sequential objective construction over a match list; the first
`ValueError` aborts, as the exception would in Python. -/
def objectivesOfMatches :
    List (List Char × List Char × List Char) → Except String (List TaskObjective)
  | [] => .ok []
  | g :: gs =>
    match objectiveOfMatch g with
    | .error e => .error e
    | .ok o =>
      match objectivesOfMatches gs with
      | .error e => .error e
      | .ok os => .ok (o :: os)

/-- `TaskParser._extract_objectives`: run both patterns, then fall back to
a single synthetic objective when no match was found. -/
def extractObjectives (d : List Char) : Except String (List TaskObjective) :=
  match objectivesOfMatches (findAllP1 d) with
  | .error e => .error e
  | .ok o1 =>
    match objectivesOfMatches (findAllP2 d) with
    | .error e => .error e
    | .ok o2 =>
      let objectives := o1 ++ o2
      if objectives.isEmpty then
        .ok [{ description := String.mk d, target := "general", quantity := 1 }]
      else .ok objectives

/-- `TaskParser._determine_difficulty`. -/
def determineDifficulty (d : List Char) (objectives : List TaskObjective) :
    TaskDifficulty :=
  if ["boss".data, "raid".data, "advanced".data, "expert".data,
      "high level".data, "difficult".data].any (fun k => pySub k d) then
    .advanced
  else if ["medium".data, "moderate".data, "some".data, "several".data].any
      (fun k => pySub k d) then
    .intermediate
  else if 3 < objectives.length then .intermediate
  else .beginner

/-- `TaskParser._extract_requirements`: the skill-level dict (later
matches overwrite earlier ones for the same skill, as dict assignment
does) and the verbatim item phrases. -/
def extractRequirements (d : List Char) : TaskRequirement :=
  let upsert : List (String × Int) → String → Int → List (String × Int) :=
    fun acc k v =>
      if acc.any (fun p => p.1 = k) then
        acc.map (fun p => if p.1 = k then (k, v) else p)
      else acc ++ [(k, v)]
  let skill_levels :=
    (findAllLvl d).foldl
      (fun acc g =>
        if skillKeywords.contains g.2 then
          upsert acc (String.mk g.2) (natOfDigits g.1 : Int)
        else acc)
      []
  { skill_levels := skill_levels
    items := (findAllItem d).map (fun m => String.mk (pyStrip m))
    quests_completed := [] }

/-- `TaskParser._generate_task_name`: first five words, capitalized,
joined with spaces. -/
def generateTaskName (d : List Char) : String :=
  String.mk (List.intercalate [' '] (((pySplit d).take 5).map pyCapitalize))

/-- `TaskParser.parse_task`.  The description is lower-cased and stripped,
then category, objectives, difficulty, requirements and name are computed;
objective extraction can raise `ValueError` (see `objectiveOfMatch`), in
which case no task is returned. -/
def parseTask (d0 : String) : Except String Task :=
  let d := pyStrip (d0.data.map pyToLower)
  let category := determineCategory d
  match extractObjectives d with
  | .error e => .error e
  | .ok objectives =>
    .ok { name := generateTaskName d
          description := String.mk d
          category := category
          difficulty := determineDifficulty d objectives
          objectives := objectives
          requirements := extractRequirements d }

/-! ## TaskManager (`tasks/task_system.py`) -/

/-- Set the `completed` flag of the objective at position `n`. -/
def setCompleted : List TaskObjective → Nat → List TaskObjective
  | [], _ => []
  | o :: rest, 0 => { o with completed := true } :: rest
  | o :: rest, n + 1 => o :: setCompleted rest n

/-- `TaskManager.mark_objective_complete`: in-place update of one
objective's flag, guarded by `0 <= objective_index < len(task.objectives)`;
out-of-range indices (including negative ones) are silently ignored. -/
def markObjectiveComplete (t : Task) (objective_index : Int) : Task :=
  if 0 ≤ objective_index ∧ objective_index < (t.objectives.length : Int) then
    { t with objectives := setCompleted t.objectives objective_index.toNat }
  else t

/-- `TaskManager.is_task_complete`. -/
def isTaskComplete (t : Task) : Bool :=
  t.objectives.all (·.completed)

/-! ## JSON documents and Python dict semantics -/

/-- JSON-like values making up environment contracts.  `.int` embeds
Python ints and `.num` Python floats (as exact rationals). -/
inductive JsonVal
  | str (s : String)
  | int (n : Int)
  | num (q : ℚ)
  | bool (b : Bool)
  | arr (xs : List JsonVal)
  | obj (fields : List (String × JsonVal))

/-- A Python dict embedded as an association list in insertion order. -/
abbrev JsonDict := List (String × JsonVal)

/-- Dict lookup `d[k]` / `d.get(k)`. -/
def dictGet (d : JsonDict) (k : String) : Option JsonVal :=
  match d.find? (fun p => p.1 = k) with
  | some p => some p.2
  | none => none

/-- Dict assignment `d[k] = v`: overwrite in place, or append a new key. -/
def dictSet (d : JsonDict) (k : String) (v : JsonVal) : JsonDict :=
  if d.any (fun p => p.1 = k) then
    d.map (fun p => if p.1 = k then (k, v) else p)
  else d ++ [(k, v)]

/-- Python `dict.update`: assign every pair of `upd` in order. -/
def dictUpdate (d upd : JsonDict) : JsonDict :=
  upd.foldl (fun acc p => dictSet acc p.1 p.2) d

/-! ## EnvironmentFactory (`core/environment_factory.py`) -/

/-- The objective snapshot used by both `task_info` blocks
(description/target/quantity/completed). -/
def objectiveSnapshot (o : TaskObjective) : JsonVal :=
  .obj [("description", .str o.description),
        ("target", .str o.target),
        ("quantity", .int o.quantity),
        ("completed", .bool o.completed)]

/-- The `task_info` block of `_customize_contract_for_task` and
`_create_generic_environment`. -/
def taskInfo (t : Task) : JsonVal :=
  .obj [("name", .str t.name),
        ("category", .str t.category.value),
        ("difficulty", .str t.difficulty.value),
        ("objectives", .arr (t.objectives.map objectiveSnapshot))]

/-- `EnvironmentFactory._select_base_contract`: fixed category table with
default `"NhEnv"`. -/
def selectBaseContract : TaskCategory → String
  | .combat => "NhEnv"
  | .pvp => "NhEnv"
  | .skilling => "SkillingEnv"
  | .trading => "TradingEnv"
  | .questing => "QuestEnv"
  | .exploration => "ExplorationEnv"
  | _ => "NhEnv"

/-- `EnvironmentFactory._generate_task_observations`: one progress
observation per objective plus skilling extras. -/
def generateTaskObservations (t : Task) : List JsonVal :=
  (t.objectives.enum.map fun p =>
    JsonVal.obj
      [("name", .str ("objective_" ++ toString p.1 ++ "_progress")),
       ("description", .str ("Progress towards: " ++ p.2.description)),
       ("type", .str "discrete"),
       ("min", .int 0),
       ("max", .int p.2.quantity)]) ++
  (if t.category = .skilling then
    [.obj [("name", .str "xp_gained"),
           ("description", .str "Experience gained this episode"),
           ("type", .str "continuous"),
           ("min", .int 0),
           ("max", .int 10000)],
     .obj [("name", .str "skill_level_progress"),
           ("description", .str "Progress towards next skill level"),
           ("type", .str "continuous"),
           ("min", .int 0),
           ("max", .int 1)]]
  else [])

/-- `EnvironmentFactory._generate_task_actions`. -/
def generateTaskActions (t : Task) : List JsonVal :=
  if t.category = .skilling then
    [.obj [("name", .str "skilling_actions"),
           ("description", .str "Actions for skilling tasks"),
           ("actions", .arr
             [.obj [("name", .str "mine"), ("description", .str "Mine a resource")],
              .obj [("name", .str "cut_tree"), ("description", .str "Cut down a tree")],
              .obj [("name", .str "fish"), ("description", .str "Catch fish")],
              .obj [("name", .str "cook"), ("description", .str "Cook food")],
              .obj [("name", .str "craft_item"), ("description", .str "Craft an item")]])]]
  else if t.category = .exploration then
    [.obj [("name", .str "movement_actions"),
           ("description", .str "Actions for exploration tasks"),
           ("actions", .arr
             [.obj [("name", .str "move_north"), ("description", .str "Move north")],
              .obj [("name", .str "move_south"), ("description", .str "Move south")],
              .obj [("name", .str "move_east"), ("description", .str "Move east")],
              .obj [("name", .str "move_west"), ("description", .str "Move west")],
              .obj [("name", .str "interact_object"), ("description", .str "Interact with object")],
              .obj [("name", .str "use_teleport"), ("description", .str "Use teleportation")]])]]
  else []

/-- `EnvironmentFactory._create_generic_environment`: the fully
synthesized fallback contract, with the key order of the source literal. -/
def genericEnvironment (t : Task) : JsonVal :=
  .obj [("name", .str (t.name ++ "Env")),
        ("description", .str ("Generic environment for task: " ++ t.description)),
        ("task_info", taskInfo t),
        ("observations", .arr
          [.obj [("name", .str "player_position"),
                 ("description", .str "Player's position in the game world"),
                 ("type", .str "discrete"),
                 ("min", .int 0),
                 ("max", .int 4096)],
           .obj [("name", .str "task_progress"),
                 ("description", .str "Overall task completion progress"),
                 ("type", .str "continuous"),
                 ("min", .int 0),
                 ("max", .int 1)]]),
        ("actions", .arr
          [.obj [("name", .str "basic_actions"),
                 ("description", .str "Basic game actions"),
                 ("actions", .arr
                   [.obj [("name", .str "wait"), ("description", .str "Do nothing")],
                    .obj [("name", .str "move"), ("description", .str "Move player")],
                    .obj [("name", .str "interact"), ("description", .str "Interact with object")],
                    .obj [("name", .str "use_item"), ("description", .str "Use an item")]])]])]

/-- `EnvironmentFactory._customize_contract_for_task`, together with the
aliasing effect of `dict.copy()`: both copies in the source are shallow,
so `contract["observations"].extend(...)` and
`contract["actions"].append(...)` mutate the very list objects stored in
the factory's `_base_contracts`.  The function returns the new value of
the stored base contract alongside the customized output contract; the
key rebindings (`name`, `description`, `task_info`) affect only the
output copy.  Extending a non-list value raises `AttributeError`. -/
def customizeContractForTask (base : JsonDict) (t : Task) :
    Except String (JsonDict × JsonDict) :=
  let c1 := dictSet base "name" (.str (t.name ++ "Env"))
  let c2 := dictSet c1 "description"
      (.str ("Environment for task: " ++ t.description))
  let obsStep : Except String (JsonDict × JsonDict) :=
    match dictGet c2 "observations" with
    | none => .ok (base, c2)
    | some (.arr xs) =>
      let ext := JsonVal.arr (xs ++ generateTaskObservations t)
      .ok (dictSet base "observations" ext, dictSet c2 "observations" ext)
    | some _ => .error "AttributeError"
  match obsStep with
  | .error e => .error e
  | .ok (stored1, c3) =>
    let actStep : Except String (JsonDict × JsonDict) :=
      match dictGet c3 "actions" with
      | none => .ok (stored1, c3)
      | some (.arr xs) =>
        let ext := JsonVal.arr (xs ++ generateTaskActions t)
        .ok (dictSet stored1 "actions" ext, dictSet c3 "actions" ext)
      | some _ => .error "AttributeError"
    match actStep with
    | .error e => .error e
    | .ok (stored2, c4) => .ok (stored2, dictSet c4 "task_info" (taskInfo t))

/-- `EnvironmentFactory.create_environment_for_task` over the factory's
loaded base-contract map.  Returns the updated map (the shallow-copy
aliasing described at `customizeContractForTask` can mutate it) together
with the produced contract; a stored base contract that is not a JSON
object cannot be customized (the attribute accesses fail). -/
def createEnvironmentForTask (contracts : List (String × JsonVal)) (t : Task) :
    Except String (List (String × JsonVal) × JsonVal) :=
  let nm := selectBaseContract t.category
  match ((contracts.find? (fun p => p.1 = nm)).map (fun p => p.2) : Option JsonVal) with
  | none => .ok (contracts, genericEnvironment t)
  | some (.obj fields) =>
    match customizeContractForTask fields t with
    | .error e => .error e
    | .ok (stored, out) =>
      .ok (contracts.map (fun p => if p.1 = nm then (nm, JsonVal.obj stored) else p),
           .obj out)
  | some _ => .error "AttributeError"

/-! ## ConfigManager (`core/config_manager.py`)

Float-valued configuration fields are embedded as exact rationals. -/

/-- `AgentConfig` dataclass with its defaults. -/
structure AgentConfig where
  model_name : String := "GeneralizedAgent"
  stack_frames : Int := 4
  deterministic : Bool := false
  learning_rate : ℚ := 3 / 10000
  batch_size : Int := 32
  buffer_size : Int := 100000
  exploration_noise : ℚ := 1 / 10
  deriving DecidableEq, Repr

/-- `EnvironmentConfig` dataclass with its defaults. -/
structure EnvironmentConfig where
  environment_name : String := "GeneralEnv"
  max_episode_steps : Int := 1000
  reward_scaling : ℚ := 1
  timeout_penalty : ℚ := -10
  success_reward : ℚ := 100
  step_penalty : ℚ := -1 / 10
  deriving DecidableEq, Repr

/-- `TrainingConfig` dataclass with its defaults. -/
structure TrainingConfig where
  experiment_name : String := "experiment"
  total_timesteps : Int := 1000000
  eval_frequency : Int := 10000
  checkpoint_frequency : Int := 50000
  num_eval_episodes : Int := 10
  parallel_envs : Int := 4
  use_tensorboard : Bool := true
  save_best_model : Bool := true
  deriving DecidableEq, Repr

/-- `ServerConfig` dataclass with its defaults. -/
structure ServerConfig where
  simulation_host : String := "localhost"
  simulation_port : Int := 43594
  api_host : String := "127.0.0.1"
  api_port : Int := 9999
  connection_timeout : Int := 30
  deriving DecidableEq, Repr

/-- `OSRSRLConfig`: the four sections; the constructor defaults every
omitted section. -/
structure OSRSRLConfig where
  agent : AgentConfig := {}
  environment : EnvironmentConfig := {}
  training : TrainingConfig := {}
  server : ServerConfig := {}
  deriving DecidableEq, Repr

/-- State of one named configuration file on disk, as seen by
`ConfigManager.load_config`: absent, readable (already in structured
form), or unreadable/corrupt (reading or parsing raises). -/
inductive ConfigFile
  | missing
  | stored (c : OSRSRLConfig)
  | corrupt
  deriving Repr

/-- State of a `ConfigManager`: the in-memory `_configs` dict and the
configuration directory, both keyed by configuration name. -/
structure ConfigState where
  configs : List (String × OSRSRLConfig)
  files : List (String × ConfigFile)
  deriving Repr

/-- Association-list update with Python dict assignment semantics. -/
def upsertAssoc (l : List (String × α)) (k : String) (v : α) : List (String × α) :=
  if l.any (fun p => p.1 = k) then
    l.map (fun p => if p.1 = k then (k, v) else p)
  else l ++ [(k, v)]

/-- `ConfigManager.load_config`: a missing file yields a default
configuration which is saved (registering it in `_configs`); a readable
file is parsed and registered; a corrupt file makes the method log and
re-raise.  The state is returned alongside the outcome because the caller
may catch the exception. -/
def loadConfig (st : ConfigState) (name : String) :
    ConfigState × Except String OSRSRLConfig :=
  match ((st.files.find? (fun p => p.1 = name)).map (fun p => p.2) : Option ConfigFile) with
  | none | some .missing =>
    let c : OSRSRLConfig := {}
    (⟨upsertAssoc st.configs name c, upsertAssoc st.files name (.stored c)⟩, .ok c)
  | some (.stored c) =>
    (⟨upsertAssoc st.configs name c, st.files⟩, .ok c)
  | some .corrupt => (st, .error "yaml.YAMLError")

/-- The nested override mapping built by
`TaskTrainingIntegrator._create_training_config`: only the keys that the
integrator can write are representable, which is exactly the effect of
`_update_dict_recursive` followed by `_dict_to_config` for those update
dicts (scalar leaves overwrite their field, everything else is kept). -/
structure ConfigUpdates where
  training_experiment_name : Option String := none
  training_total_timesteps : Option Int := none
  environment_environment_name : Option String := none
  environment_max_episode_steps : Option Int := none
  environment_step_penalty : Option ℚ := none
  agent_model_name : Option String := none
  agent_exploration_noise : Option ℚ := none

/-- Recursive merge of `ConfigUpdates` into a configuration
(`_update_dict_recursive` + `_dict_to_config`). -/
def applyUpdates (c : OSRSRLConfig) (u : ConfigUpdates) : OSRSRLConfig :=
  { agent :=
      { c.agent with
        model_name := u.agent_model_name.getD c.agent.model_name
        exploration_noise := u.agent_exploration_noise.getD c.agent.exploration_noise }
    environment :=
      { c.environment with
        environment_name := u.environment_environment_name.getD c.environment.environment_name
        max_episode_steps := u.environment_max_episode_steps.getD c.environment.max_episode_steps
        step_penalty := u.environment_step_penalty.getD c.environment.step_penalty }
    training :=
      { c.training with
        experiment_name := u.training_experiment_name.getD c.training.experiment_name
        total_timesteps := u.training_total_timesteps.getD c.training.total_timesteps }
    server := c.server }

/-- `ConfigManager.update_config`: raises `ValueError` when the name is
not registered in the in-memory `_configs` dict (the raise happens before
any mutation). -/
def updateConfig (st : ConfigState) (name : String) (u : ConfigUpdates) :
    ConfigState × Except String OSRSRLConfig :=
  match ((st.configs.find? (fun p => p.1 = name)).map (fun p => p.2) : Option OSRSRLConfig) with
  | none => (st, .error ("ValueError: Configuration not found: " ++ name))
  | some c =>
    let c' := applyUpdates c u
    (⟨upsertAssoc st.configs name c', st.files⟩, .ok c')

/-! ## TaskTrainingIntegrator (`core/task_training_integrator.py`) -/

/-- `_get_combat_contract_components`. -/
def combatContractComponents : JsonDict :=
  [("observations", .arr
     [.obj [("name", .str "hitpoints"), ("type", .str "discrete"), ("min", .int 0), ("max", .int 99)],
      .obj [("name", .str "prayer_points"), ("type", .str "discrete"), ("min", .int 0), ("max", .int 99)],
      .obj [("name", .str "enemy_hitpoints"), ("type", .str "discrete"), ("min", .int 0), ("max", .int 99)],
      .obj [("name", .str "combat_stance"), ("type", .str "discrete"), ("min", .int 0), ("max", .int 4)],
      .obj [("name", .str "weapon_equipped"), ("type", .str "discrete"), ("min", .int 0), ("max", .int 1000)]]),
   ("actions", .arr
     [.obj [("name", .str "combat_actions"),
            ("description", .str "Combat-related actions"),
            ("actions", .arr
              [.obj [("name", .str "attack"), ("description", .str "Attack target")],
               .obj [("name", .str "cast_spell"), ("description", .str "Cast magic spell")],
               .obj [("name", .str "use_special"), ("description", .str "Use special attack")],
               .obj [("name", .str "change_stance"), ("description", .str "Change combat stance")],
               .obj [("name", .str "eat_food"), ("description", .str "Consume food")],
               .obj [("name", .str "drink_potion"), ("description", .str "Drink potion")]])]]),
   ("reward_structure", .obj
     [("damage_dealt", .num 1),
      ("damage_taken", .num (-1 / 2)),
      ("kill_enemy", .num 100),
      ("death", .num (-100))])]

/-- `_get_skilling_contract_components`. -/
def skillingContractComponents : JsonDict :=
  [("observations", .arr
     [.obj [("name", .str "skill_xp"), ("type", .str "continuous"), ("min", .int 0), ("max", .int 200000000)],
      .obj [("name", .str "skill_level"), ("type", .str "discrete"), ("min", .int 1), ("max", .int 99)],
      .obj [("name", .str "inventory_space"), ("type", .str "discrete"), ("min", .int 0), ("max", .int 28)],
      .obj [("name", .str "resource_available"), ("type", .str "discrete"), ("min", .int 0), ("max", .int 1)],
      .obj [("name", .str "fatigue"), ("type", .str "continuous"), ("min", .int 0), ("max", .int 100)]]),
   ("actions", .arr
     [.obj [("name", .str "skilling_actions"),
            ("description", .str "Skilling-related actions"),
            ("actions", .arr
              [.obj [("name", .str "gather_resource"), ("description", .str "Gather natural resource")],
               .obj [("name", .str "process_material"), ("description", .str "Process gathered materials")],
               .obj [("name", .str "bank_items"), ("description", .str "Store items in bank")],
               .obj [("name", .str "withdraw_items"), ("description", .str "Withdraw items from bank")],
               .obj [("name", .str "drop_item"), ("description", .str "Drop unwanted item")],
               .obj [("name", .str "use_tool"), ("description", .str "Use skilling tool")]])]]),
   ("reward_structure", .obj
     [("xp_gained", .num 1),
      ("level_up", .num 50),
      ("inventory_full", .num (-5)),
      ("objective_progress", .num 10)])]

/-- `_get_exploration_contract_components`. -/
def explorationContractComponents : JsonDict :=
  [("observations", .arr
     [.obj [("name", .str "position_x"), ("type", .str "discrete"), ("min", .int 0), ("max", .int 4096)],
      .obj [("name", .str "position_y"), ("type", .str "discrete"), ("min", .int 0), ("max", .int 4096)],
      .obj [("name", .str "region_id"), ("type", .str "discrete"), ("min", .int 0), ("max", .int 65535)],
      .obj [("name", .str "destination_distance"), ("type", .str "continuous"), ("min", .int 0), ("max", .int 100)],
      .obj [("name", .str "path_blocked"), ("type", .str "discrete"), ("min", .int 0), ("max", .int 1)]]),
   ("actions", .arr
     [.obj [("name", .str "movement_actions"),
            ("description", .str "Movement and exploration actions"),
            ("actions", .arr
              [.obj [("name", .str "move_north"), ("description", .str "Move north")],
               .obj [("name", .str "move_south"), ("description", .str "Move south")],
               .obj [("name", .str "move_east"), ("description", .str "Move east")],
               .obj [("name", .str "move_west"), ("description", .str "Move west")],
               .obj [("name", .str "run_toggle"), ("description", .str "Toggle running")],
               .obj [("name", .str "use_teleport"), ("description", .str "Use teleportation method")]])]]),
   ("reward_structure", .obj
     [("distance_reduced", .num 1),
      ("reached_destination", .num 100),
      ("got_lost", .num (-10)),
      ("efficient_path", .num 5)])]

/-- `_get_generic_contract_components`. -/
def genericContractComponents : JsonDict :=
  [("observations", .arr
     [.obj [("name", .str "game_state"), ("type", .str "discrete"), ("min", .int 0), ("max", .int 1000)],
      .obj [("name", .str "progress"), ("type", .str "continuous"), ("min", .int 0), ("max", .int 1)]]),
   ("actions", .arr
     [.obj [("name", .str "basic_actions"),
            ("description", .str "Basic game actions"),
            ("actions", .arr
              [.obj [("name", .str "wait"), ("description", .str "Do nothing")],
               .obj [("name", .str "interact"), ("description", .str "Interact with object")],
               .obj [("name", .str "move"), ("description", .str "Move character")],
               .obj [("name", .str "use_item"), ("description", .str "Use an item")]])]]),
   ("reward_structure", .obj
     [("progress_made", .num 1),
      ("objective_completed", .num 50),
      ("time_penalty", .num (-1 / 10))])]

/-- `TaskTrainingIntegrator._create_environment_contract`: base dict
literal updated with the category-specific components. -/
def createEnvironmentContract (t : Task) : JsonVal :=
  let base : JsonDict :=
    [("name", .str (String.mk (pyRemoveChar ' ' t.name.data) ++ "Env")),
     ("description", .str ("Environment for task: " ++ t.description)),
     ("category", .str t.category.value),
     ("difficulty", .str t.difficulty.value),
     ("observations", .arr []),
     ("actions", .arr []),
     ("reward_structure", .obj []),
     ("task_metadata", .obj
       [("objectives", .arr (t.objectives.map fun o =>
           .obj [("description", .str o.description),
                 ("target", .str o.target),
                 ("quantity", .int o.quantity)])),
        ("requirements", .obj
          [("skill_levels", .obj (t.requirements.skill_levels.map fun p => (p.1, JsonVal.int p.2))),
           ("items", .arr (t.requirements.items.map JsonVal.str)),
           ("quests_completed", .arr (t.requirements.quests_completed.map JsonVal.str))])])]
  let components :=
    if t.category = .combat ∨ t.category = .pvp then combatContractComponents
    else if t.category = .skilling then skillingContractComponents
    else if t.category = .exploration then explorationContractComponents
    else genericContractComponents
  .obj (dictUpdate base components)

/-- `TaskTrainingIntegrator._save_temp_contract`: writes the contract to
`temp_{contract["name"]}.json` in the contracts directory (the write is
modelled as an update of a name-indexed file map) and returns the path. -/
def saveTempContract (files : List (String × JsonVal)) (c : JsonVal) :
    Except String (List (String × JsonVal) × String) :=
  match c with
  | .obj fields =>
    match dictGet fields "name" with
    | some (.str n) =>
      let path := "temp_" ++ n ++ ".json"
      .ok (upsertAssoc files path c, path)
    | _ => .error "KeyError"
  | _ => .error "TypeError"

/-- The `category_multipliers` dict of `_estimate_episode_steps`
(`TaskCategory.UNKNOWN` has no entry). -/
def categoryMultipliers : List (TaskCategory × ℚ) :=
  [(.combat, 1), (.pvp, 6 / 5), (.skilling, 2), (.exploration, 3 / 2),
   (.questing, 3), (.trading, 4 / 5)]

/-- Python `int(float)`: truncation toward zero, on the exact rational
value. -/
def pyIntOfFloat (q : ℚ) : Int :=
  if 0 ≤ q then ⌊q⌋ else -⌊-q⌋

/-- `TaskTrainingIntegrator._estimate_episode_steps`:
`int(base_steps * complexity_multiplier * multiplier)` with
`base_steps = 1000`, the objective count as complexity multiplier and the
category multiplier defaulting to `1.0`. -/
def estimateEpisodeSteps (t : Task) : Int :=
  let base_steps : ℚ := 1000
  let complexity_multiplier : ℚ := (t.objectives.length : ℚ)
  let multiplier : ℚ :=
    ((categoryMultipliers.find? (fun p => p.1 = t.category)).map (fun p => p.2)).getD 1
  pyIntOfFloat (base_steps * complexity_multiplier * multiplier)

/-- The `task_config_updates` dict of `_create_training_config`, including
the skilling and exploration adjustments. -/
def taskConfigUpdates (t : Task) : ConfigUpdates :=
  let base : ConfigUpdates :=
    { training_experiment_name :=
        some (String.mk (pyReplaceChar ' ' '_' t.name.data) ++ "_training")
      environment_environment_name :=
        some (String.mk (pyRemoveChar ' ' t.name.data) ++ "Env")
      environment_max_episode_steps := some (estimateEpisodeSteps t)
      agent_model_name :=
        some (String.mk (pyTitle t.category.value.data) ++ "Agent") }
  if t.category = .skilling then
    { base with
      training_total_timesteps := some 2000000
      environment_step_penalty := some (-1 / 20) }
  else if t.category = .exploration then
    { base with agent_exploration_noise := some (1 / 5) }
  else base

/-- The pair returned by `_create_training_config`. -/
structure TrainingConfigResult where
  config_name : String
  config_data : OSRSRLConfig
  deriving Repr

/-- `TaskTrainingIntegrator._create_training_config`: `load_config` inside
`try/except` (the fallback default is bound to a local that the rest of
the method never uses), then `update_config` on the same name — whose
`ValueError` is not caught and propagates. -/
def createTrainingConfig (st : ConfigState) (t : Task) (baseConfigName : String) :
    ConfigState × Except String TrainingConfigResult :=
  let loaded := loadConfig st baseConfigName
  let st1 := loaded.1
  let _base_config : OSRSRLConfig :=
    match loaded.2 with
    | .ok c => c
    | .error _ => {}
  let updated := updateConfig st1 baseConfigName (taskConfigUpdates t)
  match updated.2 with
  | .error e => (updated.1, .error e)
  | .ok c =>
    (updated.1,
     .ok { config_name :=
             baseConfigName ++ "_" ++ String.mk (pyReplaceChar ' ' '_' t.name.data)
           config_data := c })

/-- State threaded by `prepare_training_for_task`: the configuration store
and the contracts directory. -/
structure IntegratorState where
  cfg : ConfigState
  contractFiles : List (String × JsonVal)

/-- The bundle returned by `prepare_training_for_task`. -/
structure PrepareResult where
  environment_contract_path : String
  training_config : TrainingConfigResult
  task_name : String
  task_category : String

/-- `TaskTrainingIntegrator.prepare_training_for_task`: build the
environment contract, persist it to a temporary file, then build the
training configuration; any uncaught exception of a step propagates. -/
def prepareTrainingForTask (st : IntegratorState) (t : Task)
    (baseConfigName : String) : IntegratorState × Except String PrepareResult :=
  let contract := createEnvironmentContract t
  match saveTempContract st.contractFiles contract with
  | .error e => (st, .error e)
  | .ok (files', path) =>
    let r := createTrainingConfig st.cfg t baseConfigName
    match r.2 with
    | .error e => (⟨r.1, files'⟩, .error e)
    | .ok tc =>
      (⟨r.1, files'⟩,
       .ok { environment_contract_path := path
             training_config := tc
             task_name := t.name
             task_category := t.category.value })

/-! ## Concrete values used by the claim theorems and witnesses -/

/-- The task produced by `parseTask ""` (category and difficulty fall back
to UNKNOWN/BEGINNER, one synthetic objective). -/
def taskEmpty : Task :=
  { name := ""
    description := ""
    category := .unknown
    difficulty := .beginner
    objectives := [{ description := "", target := "general", quantity := 1 }]
    requirements := { skill_levels := [], items := [], quests_completed := [] } }

/-- A combat task with one objective, used to exhibit the shallow-copy
mutation of `create_environment_for_task`. -/
def combatTask : Task :=
  { name := "Kill Goblins"
    description := "kill goblins"
    category := .combat
    difficulty := .beginner
    objectives := [{ description := "kill 5 goblins", target := "goblins", quantity := 5 }]
    requirements := { skill_levels := [], items := [], quests_completed := [] } }

/-- A loaded base-contract map holding an `NhEnv` contract with empty
observation and action lists. -/
def nhBaseContracts : List (String × JsonVal) :=
  [("NhEnv", .obj [("observations", .arr []), ("actions", .arr [])])]

/-- Number of entries of the `"observations"` list of a contract. -/
def obsCount (j : JsonVal) : Option Nat :=
  match j with
  | .obj fields =>
    match dictGet fields "observations" with
    | some (.arr xs) => some xs.length
    | _ => none
  | _ => none

/-- Top-level field access of a JSON object. -/
def jsonField (j : JsonVal) (k : String) : Option JsonVal :=
  match j with
  | .obj fields => dictGet fields k
  | _ => none

/-- The observation count of the `NhEnv` contract stored in a
base-contract map. -/
def storedNhObs (st : List (String × JsonVal)) : Option Nat :=
  match st.find? (fun p => p.1 = "NhEnv") with
  | some p => obsCount p.2
  | none => none

/-- A questing task (its category maps to the absent `QuestEnv`), used as
the generic-fallback witness. -/
def questTask : Task :=
  { name := "Do Quest"
    description := "do the quest"
    category := .questing
    difficulty := .beginner
    objectives := [{ description := "do the quest", target := "general", quantity := 1 }]
    requirements := { skill_levels := [], items := [], quests_completed := [] } }

/-- A two-objective task used as the `mark_objective_complete` witness. -/
def twoObjTask : Task :=
  { name := "Two"
    description := "two objectives"
    category := .unknown
    difficulty := .beginner
    objectives :=
      [{ description := "first", target := "a", quantity := 1 },
       { description := "second", target := "b", quantity := 2 }]
    requirements := { skill_levels := [], items := [], quests_completed := [] } }

/-- A skilling task with three objectives, used as the episode-step
witness. -/
def skillingTask3 : Task :=
  { name := "Skill"
    description := "train skills"
    category := .skilling
    difficulty := .beginner
    objectives :=
      [{ description := "a", target := "a", quantity := 1 },
       { description := "b", target := "b", quantity := 2 },
       { description := "c", target := "c", quantity := 3 }]
    requirements := { skill_levels := [], items := [], quests_completed := [] } }

/-- An integrator state whose configuration directory holds a corrupt
`default` configuration file and whose in-memory config dict is empty. -/
def corruptDefaultState : IntegratorState :=
  { cfg := { configs := [], files := [("default", .corrupt)] }
    contractFiles := [] }

/-- Modelled from the spec: the per-category episode multiplier table of
section 4.4 step 5 (COMBAT 1.0, PVP 1.2, SKILLING 2.0, EXPLORATION 1.5,
QUESTING 3.0, TRADING 0.8, default 1.0 for UNKNOWN), to be compared with
the multiplier the source computes. -/
def specCategoryMultiplier : TaskCategory → ℚ
  | .combat => 1
  | .pvp => 6 / 5
  | .skilling => 2
  | .exploration => 3 / 2
  | .questing => 3
  | .trading => 4 / 5
  | .unknown => 1

/-! ## Helper lemmas -/

/-- Elements of `pyStrip l` come from `l`. -/
theorem mem_pyStrip {c : Char} {l : List Char} (h : c ∈ pyStrip l) : c ∈ l := by
  unfold pyStrip at h
  have h1 : List.Sublist
      (((l.dropWhile pyIsSpace).reverse.dropWhile pyIsSpace).reverse)
      ((l.dropWhile pyIsSpace).reverse.reverse) :=
    (List.dropWhile_sublist _).reverse
  rw [List.reverse_reverse] at h1
  exact (h1.trans (List.dropWhile_sublist _)).subset h

/-- `pyInt` on a string without a minus sign returns a non-negative value
when it succeeds. -/
theorem pyInt_ok_nonneg {l : List Char} {n : Int}
    (hm : '-' ∉ l) (h : pyInt l = .ok n) : 0 ≤ n := by
  unfold pyInt at h
  split at h
  · next heq =>
    exfalso
    exact hm (mem_pyStrip (heq ▸ List.mem_cons_self '-' _))
  · next heq =>
    split at h
    · exact (Except.ok.injEq _ _ ▸ h) ▸ Int.ofNat_nonneg _
    · exact absurd h (by simp)
  · split at h
    · exact (Except.ok.injEq _ _ ▸ h) ▸ Int.ofNat_nonneg _
    · exact absurd h (by simp)

/-- Every group triple emitted by `reFindAllAux` comes from a successful
run of the matcher. -/
theorem reFindAllAux_mem {m : List Char → Option (γ × List Char)}
    {P : γ → Prop} (hP : ∀ s g r, m s = some (g, r) → P g) :
    ∀ fuel s, ∀ g ∈ reFindAllAux m fuel s, P g := by
  intro fuel
  induction fuel with
  | zero => intro s g hg; simp [reFindAllAux] at hg
  | succ f ih =>
    intro s g hg
    match s with
    | [] => simp [reFindAllAux] at hg
    | c :: t =>
      rw [reFindAllAux] at hg
      revert hg
      split
      · next g' rest heq =>
        intro hg
        rcases List.mem_cons.mp hg with h | h
        · exact h ▸ hP _ _ _ heq
        · exact ih rest g h
      · intro hg
        exact ih t g hg

/-- Every group triple of `reFindAll` satisfies any property preserved by
the matcher. -/
theorem reFindAll_mem {m : List Char → Option (γ × List Char)}
    {P : γ → Prop} (hP : ∀ s g r, m s = some (g, r) → P g)
    {s : List Char} {g : γ} (hg : g ∈ reFindAll m s) : P g :=
  reFindAllAux_mem hP _ s g hg

/-- A successful `splitPrefixOfAny` over non-empty alternatives consumes
at least one character. -/
theorem splitPrefixOfAny_length {vs : List (List Char)} {s v r : List Char}
    (hvs : ∀ x ∈ vs, x ≠ []) (h : splitPrefixOfAny vs s = some (v, r)) :
    r.length < s.length := by
  induction vs with
  | nil => simp [splitPrefixOfAny] at h
  | cons w ws ih =>
    unfold splitPrefixOfAny at h
    split at h
    · next hpre =>
      have hinj := Option.some.inj h
      rw [Prod.mk.injEq] at hinj
      obtain ⟨h1, h2⟩ := hinj
      subst h2
      have hw : w ≠ [] := hvs w (List.mem_cons_self w ws)
      have hlen : w.length ≤ s.length :=
        (List.isPrefixOf_iff_prefix.mp hpre).length_le
      have hpos : 1 ≤ w.length := by
        cases hv : w
        · exact absurd hv hw
        · simp [hv]
      simp only [List.length_drop]
      omega
    · exact ih (fun x hx => hvs x (List.mem_cons_of_mem w hx)) h

/-- A first-pattern match consumes at least one character. -/
theorem matchP1_consumes {s : List Char}
    {g : List Char × List Char × List Char} {r : List Char}
    (h : matchP1 s = some (g, r)) : r.length < s.length := by
  unfold matchP1 at h
  split at h
  · exact absurd h (by simp)
  · next v s1 heq =>
    have hs1 : s1.length < s.length := splitPrefixOfAny_length (by decide) heq
    dsimp only at h
    split at h
    · exact absurd h (by simp)
    · split at h
      · exact absurd h (by simp)
      · split at h
        · exact absurd h (by simp)
        · split at h
          · split at h
            · simp only [Option.some.injEq, Prod.mk.injEq] at h
              obtain ⟨hg, hr⟩ := h
              subst hr
              simp only [List.length_drop]
              omega
            · exact absurd h (by simp)
          · simp only [Option.some.injEq, Prod.mk.injEq] at h
            obtain ⟨hg, hr⟩ := h
            subst hr
            simp only [List.length_drop]
            omega

/-- A second-pattern match consumes at least one character. -/
theorem matchP2_consumes {s : List Char}
    {g : List Char × List Char × List Char} {r : List Char}
    (h : matchP2 s = some (g, r)) : r.length < s.length := by
  unfold matchP2 at h
  dsimp only at h
  split at h
  · exact absurd h (by simp)
  · next hds =>
    have hdsle : (s.takeWhile pyIsDigit).length ≤ s.length :=
      (List.takeWhile_prefix _).length_le
    have hds1 : 1 ≤ (s.takeWhile pyIsDigit).length := by
      cases hq : s.takeWhile pyIsDigit
      · exact absurd hq hds
      · simp [hq]
    split at h
    · exact absurd h (by simp)
    · split at h
      · simp only [Option.some.injEq, Prod.mk.injEq] at h
        obtain ⟨hg, hr⟩ := h
        subst hr
        simp only [List.length_drop]
        omega
      · split at h
        · split at h
          · next vb r2 heq =>
            simp only [Option.some.injEq, Prod.mk.injEq] at h
            obtain ⟨hg, hr⟩ := h
            subst hr
            have hb := splitPrefixOfAny_length (by decide) heq
            simp only [List.length_drop] at hb ⊢
            omega
          · exact absurd h (by simp)
        · exact absurd h (by simp)

/-- A skill-level-pattern match consumes at least one character. -/
theorem matchLvl_consumes {s : List Char}
    {g : List Char × List Char} {r : List Char}
    (h : matchLvl s = some (g, r)) : r.length < s.length := by
  unfold matchLvl at h
  dsimp only at h
  split at h
  · exact absurd h (by simp)
  · next hds =>
    have hdsle : (s.takeWhile pyIsDigit).length ≤ s.length :=
      (List.takeWhile_prefix _).length_le
    have hds1 : 1 ≤ (s.takeWhile pyIsDigit).length := by
      cases hq : s.takeWhile pyIsDigit
      · exact absurd hq hds
      · simp [hq]
    split at h
    · exact absurd h (by simp)
    · split at h
      · exact absurd h (by simp)
      · split at h
        · exact absurd h (by simp)
        · split at h
          · next lit rest heq =>
            simp only [Option.some.injEq, Prod.mk.injEq] at h
            obtain ⟨hg, hr⟩ := h
            subst hr
            have hb := splitPrefixOfAny_length (by decide) heq
            simp only [List.length_drop] at hb ⊢
            omega
          · exact absurd h (by simp)

/-- The remainder returned by `itemW` stays within its input. -/
theorem itemW_rest {s1 : List Char} :
    ∀ n g r, itemW s1 n = some (g, r) → r.length ≤ s1.length := by
  intro n
  induction n with
  | zero => intro g r h; simp [itemW] at h
  | succ n ih =>
    intro g r h
    rw [itemW] at h
    cases heq : itemLazy (s1.drop (n + 1)) 1
        ((s1.drop (n + 1)).takeWhile pyIsClass).length with
    | some p =>
      obtain ⟨k, tl⟩ := p
      simp only [heq] at h
      simp only [Option.some.injEq, Prod.mk.injEq] at h
      obtain ⟨hg, hr⟩ := h
      subst hr
      simp only [List.length_drop]
      omega
    | none =>
      simp only [heq] at h
      exact ih g r h

/-- An item-pattern match consumes at least one character. -/
theorem matchItem_consumes {s : List Char} {g r : List Char}
    (h : matchItem s = some (g, r)) : r.length < s.length := by
  unfold matchItem at h
  split at h
  · exact absurd h (by simp)
  · next v s1 heq =>
    have hs1 : s1.length < s.length := splitPrefixOfAny_length (by decide) heq
    dsimp only at h
    split at h
    · exact absurd h (by simp)
    · have := itemW_rest _ g r h
      omega

/-- Any two sufficient fuels drive `reFindAllAux` to the same result, for
a matcher that always consumes input. -/
theorem reFindAllAux_fuel {m : List Char → Option (γ × List Char)}
    (hm : ∀ s g r, m s = some (g, r) → r.length < s.length) :
    ∀ f1 f2 s, s.length < f1 → s.length < f2 →
      reFindAllAux m f1 s = reFindAllAux m f2 s := by
  intro f1
  induction f1 with
  | zero => intro f2 s h1 h2; exact absurd h1 (Nat.not_lt_zero _)
  | succ n ih =>
    intro f2 s h1 h2
    cases f2 with
    | zero => exact absurd h2 (Nat.not_lt_zero _)
    | succ k =>
      match s with
      | [] => rfl
      | c :: t =>
        rw [reFindAllAux, reFindAllAux]
        cases heq : m (c :: t) with
        | some gr =>
          obtain ⟨g, r⟩ := gr
          simp only [heq]
          have hr := hm _ _ _ heq
          simp only [List.length_cons] at h1 h2 hr
          rw [ih k r (by omega) (by omega)]
        | none =>
          simp only [heq]
          simp only [List.length_cons] at h1 h2
          exact ih k t (by omega) (by omega)

/-- The fuel `s.length + 1` used by `reFindAll` is not a truncation: any
larger fuel computes the same match list (the four matchers all satisfy
the consumption hypothesis, by `matchP1_consumes`, `matchP2_consumes`,
`matchLvl_consumes` and `matchItem_consumes`). -/
theorem reFindAll_fuel_irrelevant {m : List Char → Option (γ × List Char)}
    (hm : ∀ s g r, m s = some (g, r) → r.length < s.length)
    (f : Nat) (s : List Char) (hf : s.length < f) :
    reFindAllAux m f s = reFindAll m s :=
  reFindAllAux_fuel hm f (s.length + 1) s hf (Nat.lt_succ_self _)

/-- Characters of `l.take j` satisfy `p` when `j` does not exceed the
maximal `p`-prefix of `l`. -/
theorem mem_take_takeWhile {p : Char → Bool} {l : List Char} {j : Nat} {c : Char}
    (hj : j ≤ (l.takeWhile p).length) (hc : c ∈ l.take j) : p c := by
  have hpre : l.takeWhile p = l.take (l.takeWhile p).length :=
    (List.prefix_iff_eq_take).mp (List.takeWhile_prefix _)
  have htt : l.take j = (l.takeWhile p).take j := by
    conv_lhs => rw [← Nat.min_eq_left hj, ← List.take_take, ← hpre]
  rw [htt] at hc
  exact List.mem_takeWhile_imp (List.mem_of_mem_take hc)

/-- The middle group of a first-pattern match is the maximal digit run. -/
theorem matchP1_digits {s : List Char}
    {g : List Char × List Char × List Char} {r : List Char}
    (h : matchP1 s = some (g, r)) : ∀ c ∈ g.2.1, pyIsDigit c := by
  unfold matchP1 at h
  dsimp only at h
  split at h
  · exact absurd h (by simp)
  · split at h
    · exact absurd h (by simp)
    · split at h
      · exact absurd h (by simp)
      · split at h
        · exact absurd h (by simp)
        · split at h
          · split at h
            · simp only [Option.some.injEq, Prod.mk.injEq] at h
              obtain ⟨hg, hr⟩ := h
              subst hg
              intro c hc
              exact List.mem_takeWhile_imp hc
            · exact absurd h (by simp)
          · simp only [Option.some.injEq, Prod.mk.injEq] at h
            obtain ⟨hg, hr⟩ := h
            subst hg
            intro c hc
            exact List.mem_takeWhile_imp hc

/-- `p2Tail` reports back the offset it was given. -/
theorem p2Tail_fst {v : List Char} {j : Nat} {x : Nat × Nat × List Char}
    (h : p2Tail v j = some x) : x.1 = j := by
  unfold p2Tail at h
  dsimp only at h
  split at h
  · exact absurd h (by simp)
  · split at h
    · cases Option.some.inj h
      rfl
    · exact absurd h (by simp)

/-- `p2Best` never returns an offset above its bound. -/
theorem p2Best_le {v : List Char} :
    ∀ b j wl vb, p2Best v b = some (j, wl, vb) → j ≤ b := by
  intro b
  induction b with
  | zero => intro j wl vb h; simp [p2Best] at h
  | succ n ih =>
    intro j wl vb h
    rw [p2Best] at h
    cases heq : p2Tail v (n + 1) with
    | some x =>
      simp only [heq] at h
      have hx := Option.some.inj h
      have h1 := p2Tail_fst heq
      rw [hx] at h1
      exact Nat.le_of_eq h1
    | none =>
      simp only [heq] at h
      exact Nat.le_succ_of_le (ih j wl vb h)

/-- The middle group of a second-pattern match consists of `[a-z\s]`
characters only (so it contains no digit and no sign: `int` on it always
raises `ValueError`). -/
theorem matchP2_class {s : List Char}
    {g : List Char × List Char × List Char} {r : List Char}
    (h : matchP2 s = some (g, r)) : ∀ c ∈ g.2.1, pyIsClass c := by
  unfold matchP2 at h
  dsimp only at h
  split at h
  · exact absurd h (by simp)
  · split at h
    · exact absurd h (by simp)
    · split at h
      · next j wl vb heq =>
        simp only [Option.some.injEq, Prod.mk.injEq] at h
        obtain ⟨hg, hr⟩ := h
        subst hg
        intro c hc
        exact mem_take_takeWhile (p2Best_le _ j wl vb heq) hc
      · split at h
        · split at h
          · simp only [Option.some.injEq, Prod.mk.injEq] at h
            obtain ⟨hg, hr⟩ := h
            subst hg
            intro c hc
            have hw : pyIsSpace c :=
              List.mem_takeWhile_imp
                (List.mem_of_mem_drop (List.mem_of_mem_take hc))
            simp [pyIsClass, hw]
          · exact absurd h (by simp)
        · exact absurd h (by simp)

/-- Objectives built from matches whose middle group has no minus sign
have non-negative quantities. -/
theorem objectivesOfMatches_nonneg
    {ms : List (List Char × List Char × List Char)}
    {os : List TaskObjective}
    (hminus : ∀ g ∈ ms, '-' ∉ g.2.1)
    (h : objectivesOfMatches ms = .ok os) :
    ∀ o ∈ os, 0 ≤ o.quantity := by
  induction ms generalizing os with
  | nil =>
    unfold objectivesOfMatches at h
    cases Except.ok.inj h
    intro o ho
    simp at ho
  | cons g gs ih =>
    unfold objectivesOfMatches at h
    revert h
    split
    · intro h; exact absurd h (by simp)
    · next q hq =>
      split
      · intro h; exact absurd h (by simp)
      · next os' hos' =>
        intro h
        cases Except.ok.inj h
        intro o ho
        rcases List.mem_cons.mp ho with h1 | h1
        · subst h1
          unfold objectiveOfMatch at hq
          revert hq
          split
          · intro hq; exact absurd hq (by simp)
          · next n hn =>
            intro hq
            cases Except.ok.inj hq
            exact pyInt_ok_nonneg (hminus g (List.mem_cons_self g gs)) hn
        · exact ih (fun g' hg' => hminus g' (List.mem_cons_of_mem g hg')) hos' o h1

/-- Everything `extractObjectives` returns has a non-negative quantity:
first-pattern quantities parse a digit run, second-pattern quantities
would have to parse a `[a-z\s]` phrase (which in fact always raises), and
the fallback objective carries quantity one. -/
theorem extractObjectives_nonneg {d : List Char} {os : List TaskObjective}
    (h : extractObjectives d = .ok os) : ∀ o ∈ os, 0 ≤ o.quantity := by
  have hp1 : ∀ g ∈ findAllP1 d, '-' ∉ g.2.1 := by
    intro g hg hmem
    have hd : pyIsDigit '-' :=
      reFindAll_mem (P := fun g => ∀ c ∈ g.2.1, pyIsDigit c)
        (fun s g r hm => matchP1_digits hm) hg '-' hmem
    exact absurd hd (by decide)
  have hp2 : ∀ g ∈ findAllP2 d, '-' ∉ g.2.1 := by
    intro g hg hmem
    have hd : pyIsClass '-' :=
      reFindAll_mem (P := fun g => ∀ c ∈ g.2.1, pyIsClass c)
        (fun s g r hm => matchP2_class hm) hg '-' hmem
    exact absurd hd (by decide)
  unfold extractObjectives at h
  revert h
  split
  · intro h; exact absurd h (by simp)
  · next o1 ho1 =>
    split
    · intro h; exact absurd h (by simp)
    · next o2 ho2 =>
      dsimp only
      split
      · intro h
        cases Except.ok.inj h
        intro o ho
        rcases List.mem_singleton.mp ho with rfl
        norm_num
      · intro h
        cases Except.ok.inj h
        intro o ho
        rcases List.mem_append.mp ho with h1 | h1
        · exact objectivesOfMatches_nonneg hp1 ho1 o h1
        · exact objectivesOfMatches_nonneg hp2 ho2 o h1

/-- Inversion for `parseTask`: a successful parse is assembled from a
successful objective extraction over the normalized description. -/
theorem parseTask_ok {d0 : String} {t : Task} (h : parseTask d0 = .ok t) :
    ∃ os, extractObjectives (pyStrip (d0.data.map pyToLower)) = .ok os ∧
      t = { name := generateTaskName (pyStrip (d0.data.map pyToLower))
            description := String.mk (pyStrip (d0.data.map pyToLower))
            category := determineCategory (pyStrip (d0.data.map pyToLower))
            difficulty := determineDifficulty (pyStrip (d0.data.map pyToLower)) os
            objectives := os
            requirements := extractRequirements (pyStrip (d0.data.map pyToLower)) } := by
  unfold parseTask at h
  dsimp only at h
  revert h
  split
  · intro h; exact absurd h (by simp)
  · next os hos =>
    intro h
    exact ⟨os, hos, (Except.ok.inj h).symm⟩

/-- The difficulty heuristic only yields ADVANCED, INTERMEDIATE or
BEGINNER. -/
theorem determineDifficulty_ne_expert (d : List Char)
    (os : List TaskObjective) : determineDifficulty d os ≠ .expert := by
  unfold determineDifficulty
  split
  · simp
  · split
    · simp
    · split <;> simp

/-- `pyToLower` at the level of code points. -/
theorem toNat_pyToLower (c : Char) :
    (pyToLower c).toNat =
      if 65 ≤ c.toNat ∧ c.toNat ≤ 90 then c.toNat + 32 else c.toNat := by
  unfold pyToLower
  by_cases h : 65 ≤ c.toNat ∧ c.toNat ≤ 90
  · rw [if_pos h, if_pos h]
    have hv : (c.toNat + 32).isValidChar := Or.inl (by omega)
    unfold Char.ofNat
    rw [dif_pos hv]
    unfold Char.ofNatAux Char.toNat
    simp [UInt32.toNat, BitVec.toNat_ofNatLt]
  · rw [if_neg h, if_neg h]

/-- Lower-casing does not change whether a character is whitespace. -/
theorem pyIsSpace_pyToLower (c : Char) :
    pyIsSpace (pyToLower c) = pyIsSpace c := by
  unfold pyIsSpace
  rw [toNat_pyToLower]
  by_cases h : 65 ≤ c.toNat ∧ c.toNat ≤ 90
  · rw [if_pos h]
    have hA : (decide (c.toNat + 32 = 32) || decide (c.toNat + 32 = 9) ||
        decide (c.toNat + 32 = 10) || decide (c.toNat + 32 = 13) ||
        decide (c.toNat + 32 = 11) || decide (c.toNat + 32 = 12)) = false := by
      simp only [Bool.or_eq_false_iff, decide_eq_false_iff_not]
      omega
    have hB : (decide (c.toNat = 32) || decide (c.toNat = 9) ||
        decide (c.toNat = 10) || decide (c.toNat = 13) ||
        decide (c.toNat = 11) || decide (c.toNat = 12)) = false := by
      simp only [Bool.or_eq_false_iff, decide_eq_false_iff_not]
      omega
    rw [hA, hB]
  · rw [if_neg h]

/-- `str.split` commutes with character-wise lower-casing. -/
theorem pySplitAux_map_toLower (l : List Char) :
    ∀ acc, pySplitAux (l.map pyToLower) (acc.map pyToLower) =
      (pySplitAux l acc).map (List.map pyToLower) := by
  induction l with
  | nil =>
    intro acc
    by_cases h : acc = []
    · subst h; rfl
    · have h2 : acc.map pyToLower ≠ [] := by
        simpa using h
      simp only [List.map_nil]
      unfold pySplitAux
      rw [if_neg h2, if_neg h]
      simp [List.map_reverse]
  | cons c t ih =>
    intro acc
    simp only [List.map_cons]
    unfold pySplitAux
    rw [pyIsSpace_pyToLower]
    by_cases hsp : pyIsSpace c
    · rw [if_pos hsp, if_pos hsp]
      by_cases hacc : acc = []
      · have h2 : acc.map pyToLower = [] := by simp [hacc]
        rw [if_pos h2, if_pos hacc]
        exact ih []
      · have h2 : acc.map pyToLower ≠ [] := by simpa using hacc
        rw [if_neg h2, if_neg hacc]
        have := ih []
        simp only [List.map_nil] at this
        rw [this]
        simp [List.map_reverse]
    · rw [if_neg hsp, if_neg hsp]
      have := ih (c :: acc)
      simpa using this

/-- `pySplit` commutes with lower-casing. -/
theorem pySplit_map_toLower (l : List Char) :
    pySplit (l.map pyToLower) = (pySplit l).map (List.map pyToLower) := by
  have := pySplitAux_map_toLower l []
  simpa [pySplit] using this

/-- Splitting an all-whitespace string flushes only the accumulator. -/
theorem pySplitAux_all_space {sp : List Char} (hsp : ∀ c ∈ sp, pyIsSpace c) :
    ∀ acc, pySplitAux sp acc = if acc = [] then [] else [acc.reverse] := by
  induction sp with
  | nil => intro acc; rfl
  | cons c t ih =>
    intro acc
    have hc : pyIsSpace c = true := hsp c (List.mem_cons_self c t)
    have ht : ∀ x ∈ t, pyIsSpace x := fun x hx => hsp x (List.mem_cons_of_mem c hx)
    unfold pySplitAux
    rw [if_pos hc]
    by_cases hacc : acc = []
    · rw [if_pos hacc, if_pos hacc]
      have := ih ht []
      simpa using this
    · rw [if_neg hacc, if_neg hacc]
      have := ih ht []
      simp only [ite_true, reduceIte] at this
      rw [this]

/-- Trailing whitespace does not change the word list. -/
theorem pySplitAux_append_space {sp : List Char}
    (hsp : ∀ c ∈ sp, pyIsSpace c) (l : List Char) :
    ∀ acc, pySplitAux (l ++ sp) acc = pySplitAux l acc := by
  induction l with
  | nil =>
    intro acc
    rw [List.nil_append, pySplitAux_all_space hsp]
    rfl
  | cons c t ih =>
    intro acc
    rw [List.cons_append]
    unfold pySplitAux
    by_cases hc : pyIsSpace c
    · rw [if_pos hc, if_pos hc]
      by_cases hacc : acc = []
      · rw [if_pos hacc, if_pos hacc, ih]
      · rw [if_neg hacc, if_neg hacc, ih]
    · rw [if_neg hc, if_neg hc, ih]

/-- Leading whitespace does not change the word list. -/
theorem pySplit_dropWhile (l : List Char) :
    pySplit (l.dropWhile pyIsSpace) = pySplit l := by
  induction l with
  | nil => rfl
  | cons c t ih =>
    by_cases hc : pyIsSpace c
    · rw [List.dropWhile_cons, if_pos hc, ih]
      show pySplit t = pySplitAux (c :: t) []
      simp only [pySplitAux]
      rw [if_pos hc, if_pos trivial]
      rfl
    · rw [List.dropWhile_cons, if_neg hc]

/-- `str.strip` does not change the word list. -/
theorem pySplit_pyStrip (l : List Char) : pySplit (pyStrip l) = pySplit l := by
  unfold pyStrip
  set y := l.dropWhile pyIsSpace with hy
  have hdecomp : y = (y.reverse.dropWhile pyIsSpace).reverse ++
      (y.reverse.takeWhile pyIsSpace).reverse := by
    conv_lhs =>
      rw [← List.reverse_reverse y,
        ← List.takeWhile_append_dropWhile (p := pyIsSpace) (l := y.reverse)]
    rw [List.reverse_append]
  have hsp : ∀ c ∈ (y.reverse.takeWhile pyIsSpace).reverse, pyIsSpace c := by
    intro c hc
    exact List.mem_takeWhile_imp (List.mem_reverse.mp hc)
  have h1 : pySplit ((y.reverse.dropWhile pyIsSpace).reverse) = pySplit y := by
    conv_rhs => rw [hdecomp]
    exact (pySplitAux_append_space hsp _ []).symm
  rw [h1]
  exact pySplit_dropWhile l

/-- A word of the raw description survives, lower-cased, into the word
list of the normalized description. -/
theorem word_mem_normalized {d w : List Char} (hw : w ∈ pySplit d) :
    w.map pyToLower ∈ pySplit (pyStrip (d.map pyToLower)) := by
  rw [pySplit_pyStrip, pySplit_map_toLower]
  exact List.mem_map_of_mem _ hw

/-- A combat keyword among the words forces category COMBAT (the first
branch of the classifier). -/
theorem determineCategory_combat {d : List Char}
    (h : (pySplit d).any (fun w => combatKeywords.contains w) = true) :
    determineCategory d = .combat := by
  unfold determineCategory
  dsimp only
  rw [if_pos h]

/-- Length is preserved by `setCompleted`. -/
theorem setCompleted_length (l : List TaskObjective) (n : Nat) :
    (setCompleted l n).length = l.length := by
  induction l generalizing n with
  | nil => rfl
  | cons o rest ih =>
    cases n with
    | zero => rfl
    | succ m => simpa [setCompleted] using ih m

/-- `setCompleted` at the written index. -/
theorem setCompleted_get_self (l : List TaskObjective) (n : Nat) :
    (setCompleted l n)[n]? = l[n]?.map (fun o => { o with completed := true }) := by
  induction l generalizing n with
  | nil => cases n <;> rfl
  | cons o rest ih =>
    cases n with
    | zero => simp [setCompleted]
    | succ m => simpa [setCompleted] using ih m

/-- `setCompleted` away from the written index. -/
theorem setCompleted_get_ne (l : List TaskObjective) {m n : Nat} (h : m ≠ n) :
    (setCompleted l n)[m]? = l[m]? := by
  induction l generalizing m n with
  | nil => cases n <;> rfl
  | cons o rest ih =>
    cases n with
    | zero =>
      cases m with
      | zero => exact absurd rfl h
      | succ k => simp [setCompleted]
    | succ n' =>
      cases m with
      | zero => simp [setCompleted]
      | succ k => simpa [setCompleted] using ih (fun hk => h (by omega))

/-! ## Claim theorems -/

/-- C1: contract generation is NOT idempotent and DOES mutate the loaded
base contracts: with an `NhEnv` base contract holding empty observation
and action lists, the first call on a one-objective combat task returns a
contract with one observation and leaves the stored base contract with
one observation (it started with zero, exhibiting in-place mutation
through the shallow `dict.copy`), and the second call on the same
unchanged task returns a contract with two observations — structurally
different from the first. -/
theorem createEnvironmentForTask_mutates_base :
    (do
      let r1 ← createEnvironmentForTask nhBaseContracts combatTask
      let r2 ← createEnvironmentForTask r1.1 combatTask
      pure (obsCount r1.2, obsCount r2.2, storedNhObs r1.1) :
      Except String (Option Nat × Option Nat × Option Nat)) =
      .ok (some 1, some 2, some 1) ∧
    storedNhObs nhBaseContracts = some 0 :=
  ⟨rfl, rfl⟩

/-- C2: the configuration layer CAN raise out of
`prepare_training_for_task`: when the named base configuration file is
corrupt, `load_config` raises, the `try/except` fallback never registers
the default in `_configs`, and the subsequent `update_config` raises
`ValueError`, which propagates. -/
theorem prepareTrainingForTask_raises :
    (prepareTrainingForTask corruptDefaultState combatTask "default").2 =
      .error "ValueError: Configuration not found: default" :=
  rfl

/-- C3 (counterexample): parsing "Kill 10 goblins in Lumbridge" yields
exactly one objective, but its target is the greedy capture
"goblins in lumbridge", not "goblins". -/
theorem parseKillGoblins_target_not_goblins :
    (parseTask "Kill 10 goblins in Lumbridge").map
      (fun t => t.objectives.map (fun o => o.target)) =
      .ok ["goblins in lumbridge"] ∧
    ("goblins in lumbridge" : String) ≠ "goblins" :=
  ⟨rfl, by decide⟩

/-- C3 (amended): `parse_task "Kill 10 goblins in Lumbridge"` returns a
COMBAT task with exactly one extracted objective of quantity 10 whose
target is "goblins in lumbridge" (the greedy `[a-z\s]+` capture keeps the
trailing words). -/
theorem parseKillGoblins_amended :
    (parseTask "Kill 10 goblins in Lumbridge").map
      (fun t => (t.category, t.objectives.map (fun o => (o.target, o.quantity)))) =
      .ok (.combat, [("goblins in lumbridge", (10 : Int))]) :=
  rfl

/-- C4: `parse_task` does not return a Task for every input: on
"10 goblins killed" the second objective pattern matches, the match tuple
(digits, phrase, verb) is unpacked as (action, quantity, target), and
`int("goblins")` raises `ValueError`, so no Task (and hence no objectives
list) is produced at all. -/
theorem parseTask_raises_on_pattern2 :
    parseTask "10 goblins killed" = .error "ValueError" :=
  rfl

/-- C5 (counterexample): `parse_task "kill 0 goblins"` succeeds and
returns a single objective with quantity 0, violating quantity >= 1. -/
theorem parseKillZero_quantity_zero :
    (parseTask "kill 0 goblins").map
      (fun t => t.objectives.map (fun o => o.quantity)) = .ok [0] ∧
    ¬ (1 ≤ (0 : Int)) :=
  ⟨rfl, by decide⟩

/-- C5 (amended): whenever `parse_task` returns, every objective quantity
is a non-negative integer (a `\d+` capture can be 0), and when neither
objective pattern matched, the single fallback objective has quantity 1. -/
theorem parse_quantities_nonneg (d : String) (t : Task)
    (h : parseTask d = .ok t) :
    (∀ o ∈ t.objectives, 0 ≤ o.quantity) ∧
    (findAllP1 (pyStrip (d.data.map pyToLower)) = [] →
     findAllP2 (pyStrip (d.data.map pyToLower)) = [] →
     t.objectives.map (fun o => o.quantity) = [1]) := by
  obtain ⟨os, hos, rfl⟩ := parseTask_ok h
  constructor
  · intro o ho
    exact extractObjectives_nonneg hos o ho
  · intro h1 h2
    unfold extractObjectives at hos
    rw [h1, h2] at hos
    simp only [objectivesOfMatches] at hos
    simp only [List.nil_append, List.isEmpty_nil, ite_true, reduceIte] at hos
    cases Except.ok.inj hos
    rfl

/-- Witness for C5 (amended) at the empty description. -/
theorem parse_quantities_nonneg_witness :
    parseTask "" = .ok taskEmpty ∧
    0 ≤ (taskEmpty.objectives.headD { description := "", target := "" }).quantity :=
  ⟨rfl, (parse_quantities_nonneg "" taskEmpty rfl).1 _ (by simp [taskEmpty])⟩

/-- C6: a description containing a combat keyword as a whitespace-delimited
word (a skilling keyword may be present as well) is classified COMBAT:
the combat intersection test is the first branch of the classifier, so it
wins over skilling; accordingly any Task `parse_task` returns for such a
description carries category COMBAT. -/
theorem combat_beats_skilling (d : String) (cw sw : List Char)
    (hcw : cw ∈ combatKeywords) (hcword : cw ∈ pySplit d.data)
    (_hsw : sw ∈ skillingKeywords) (_hsword : sw ∈ pySplit d.data) :
    determineCategory (pyStrip (d.data.map pyToLower)) = .combat ∧
    ∀ t, parseTask d = .ok t → t.category = .combat := by
  have hlow : cw.map pyToLower = cw := by
    have hall : combatKeywords.all (fun w => w.map pyToLower == w) = true := by
      decide
    exact eq_of_beq (List.all_eq_true.mp hall cw hcw)
  have hmem : cw ∈ pySplit (pyStrip (List.map pyToLower d.data)) := by
    have := word_mem_normalized hcword
    rwa [hlow] at this
  have hany : (pySplit (pyStrip (List.map pyToLower d.data))).any
      (fun w => combatKeywords.contains w) = true := by
    rw [List.any_eq_true]
    exact ⟨cw, hmem, List.elem_iff.mpr hcw⟩
  refine ⟨determineCategory_combat hany, ?_⟩
  intro t ht
  obtain ⟨os, hos, rfl⟩ := parseTask_ok ht
  exact determineCategory_combat hany

/-- Witness for C6 on "kill and mine". -/
theorem combat_beats_skilling_witness :
    "kill".data ∈ combatKeywords ∧
    "kill".data ∈ pySplit ("kill and mine" : String).data ∧
    "mine".data ∈ skillingKeywords ∧
    "mine".data ∈ pySplit ("kill and mine" : String).data ∧
    determineCategory (pyStrip (("kill and mine" : String).data.map pyToLower)) =
      .combat :=
  ⟨by decide, by decide, by decide, by decide,
   (combat_beats_skilling "kill and mine" "kill".data "mine".data
      (by decide) (by decide) (by decide) (by decide)).1⟩

/-- C7: when the base-contract name selected for the task's category is
absent from the loaded map, `create_environment_for_task` does not fail:
it returns the generic fallback contract (leaving the map untouched),
whose observations are exactly player_position (discrete 0..4096) and
task_progress (continuous 0..1), whose single action group holds exactly
wait, move, interact, use_item, and whose task_info block snapshots the
task's category, difficulty and objectives. -/
theorem generic_fallback (st : List (String × JsonVal)) (t : Task)
    (h : st.find? (fun p => p.1 = selectBaseContract t.category) = none) :
    createEnvironmentForTask st t = .ok (st, genericEnvironment t) ∧
    jsonField (genericEnvironment t) "observations" = some (.arr
      [.obj [("name", .str "player_position"),
             ("description", .str "Player's position in the game world"),
             ("type", .str "discrete"),
             ("min", .int 0),
             ("max", .int 4096)],
       .obj [("name", .str "task_progress"),
             ("description", .str "Overall task completion progress"),
             ("type", .str "continuous"),
             ("min", .int 0),
             ("max", .int 1)]]) ∧
    jsonField (genericEnvironment t) "actions" = some (.arr
      [.obj [("name", .str "basic_actions"),
             ("description", .str "Basic game actions"),
             ("actions", .arr
               [.obj [("name", .str "wait"), ("description", .str "Do nothing")],
                .obj [("name", .str "move"), ("description", .str "Move player")],
                .obj [("name", .str "interact"), ("description", .str "Interact with object")],
                .obj [("name", .str "use_item"), ("description", .str "Use an item")]])]]) ∧
    jsonField (genericEnvironment t) "task_info" = some (.obj
      [("name", .str t.name),
       ("category", .str t.category.value),
       ("difficulty", .str t.difficulty.value),
       ("objectives", .arr (t.objectives.map objectiveSnapshot))]) := by
  refine ⟨?_, rfl, rfl, rfl⟩
  unfold createEnvironmentForTask
  dsimp only
  rw [h]
  rfl

/-- Witness for C7: an empty contract map with a questing task. -/
theorem generic_fallback_witness :
    (([] : List (String × JsonVal)).find?
      (fun p => p.1 = selectBaseContract questTask.category) = none) ∧
    createEnvironmentForTask [] questTask = .ok ([], genericEnvironment questTask) :=
  ⟨rfl, (generic_fallback [] questTask rfl).1⟩

/-- C8: `mark_objective_complete` with an in-range index sets exactly the
completed flag of the indexed objective, preserving the list length,
every other objective, and every other field of the task; with an
out-of-range index (negative included) it returns with the task entirely
unchanged and without error. -/
theorem markObjectiveComplete_frame (t : Task) (i : Int) :
    ((0 ≤ i ∧ i < (t.objectives.length : Int)) →
      (markObjectiveComplete t i).name = t.name ∧
      (markObjectiveComplete t i).description = t.description ∧
      (markObjectiveComplete t i).category = t.category ∧
      (markObjectiveComplete t i).difficulty = t.difficulty ∧
      (markObjectiveComplete t i).requirements = t.requirements ∧
      (markObjectiveComplete t i).estimated_duration = t.estimated_duration ∧
      (markObjectiveComplete t i).reward_xp = t.reward_xp ∧
      (markObjectiveComplete t i).reward_items = t.reward_items ∧
      (markObjectiveComplete t i).objectives.length = t.objectives.length ∧
      (markObjectiveComplete t i).objectives[i.toNat]? =
        t.objectives[i.toNat]?.map (fun o => { o with completed := true }) ∧
      (∀ j : Nat, j ≠ i.toNat →
        (markObjectiveComplete t i).objectives[j]? = t.objectives[j]?)) ∧
    (¬(0 ≤ i ∧ i < (t.objectives.length : Int)) →
      markObjectiveComplete t i = t) := by
  constructor
  · intro h
    unfold markObjectiveComplete
    rw [if_pos h]
    refine ⟨rfl, rfl, rfl, rfl, rfl, rfl, rfl, rfl, ?_, ?_, ?_⟩
    · exact setCompleted_length _ _
    · exact setCompleted_get_self _ _
    · intro j hj
      exact setCompleted_get_ne _ hj
  · intro h
    unfold markObjectiveComplete
    rw [if_neg h]

/-- Witness for C8 on a two-objective task at index 0. -/
theorem markObjectiveComplete_frame_witness :
    (0 ≤ (0 : Int) ∧ (0 : Int) < (twoObjTask.objectives.length : Int)) ∧
    (markObjectiveComplete twoObjTask 0).objectives[(0 : Int).toNat]? =
      twoObjTask.objectives[(0 : Int).toNat]?.map
        (fun o => { o with completed := true }) ∧
    (markObjectiveComplete twoObjTask 0).objectives[1]? =
      twoObjTask.objectives[1]? := by
  have hb : 0 ≤ (0 : Int) ∧ (0 : Int) < (twoObjTask.objectives.length : Int) :=
    ⟨by decide, by decide⟩
  have h := (markObjectiveComplete_frame twoObjTask 0).1 hb
  exact ⟨hb, h.2.2.2.2.2.2.2.2.2.1, h.2.2.2.2.2.2.2.2.2.2 1 (by decide)⟩

/-- C9: the episode-step estimate is the floor of
1000 * objective_count * category_multiplier with the multiplier table
COMBAT 1.0, PVP 1.2, SKILLING 2.0, EXPLORATION 1.5, QUESTING 3.0,
TRADING 0.8 and default 1.0 for UNKNOWN; in particular a SKILLING task
with three objectives yields 6000. -/
theorem estimateEpisodeSteps_formula :
    (∀ t : Task, estimateEpisodeSteps t =
      Int.floor ((1000 : ℚ) * (t.objectives.length : ℚ) *
        specCategoryMultiplier t.category)) ∧
    specCategoryMultiplier .combat = 1 ∧
    specCategoryMultiplier .pvp = 6 / 5 ∧
    specCategoryMultiplier .skilling = 2 ∧
    specCategoryMultiplier .exploration = 3 / 2 ∧
    specCategoryMultiplier .questing = 3 ∧
    specCategoryMultiplier .trading = 4 / 5 ∧
    specCategoryMultiplier .unknown = 1 ∧
    (∀ t : Task, t.category = .skilling → t.objectives.length = 3 →
      estimateEpisodeSteps t = 6000) := by
  have key : ∀ t : Task, estimateEpisodeSteps t =
      Int.floor ((1000 : ℚ) * (t.objectives.length : ℚ) *
        specCategoryMultiplier t.category) := by
    intro t
    have hm : (((categoryMultipliers.find? (fun p => p.1 = t.category)).map
        (fun p => p.2)).getD 1 : ℚ) = specCategoryMultiplier t.category := by
      cases t.category <;> rfl
    have he : estimateEpisodeSteps t = pyIntOfFloat ((1000 : ℚ) *
        (t.objectives.length : ℚ) * specCategoryMultiplier t.category) := by
      unfold estimateEpisodeSteps
      dsimp only
      rw [hm]
    rw [he]
    unfold pyIntOfFloat
    have h0 : (0 : ℚ) ≤ (1000 : ℚ) * (t.objectives.length : ℚ) *
        specCategoryMultiplier t.category := by
      have h1 : (0 : ℚ) ≤ (t.objectives.length : ℚ) := Nat.cast_nonneg _
      have h2 : (0 : ℚ) ≤ specCategoryMultiplier t.category := by
        cases t.category <;> norm_num [specCategoryMultiplier]
      exact mul_nonneg (mul_nonneg (by norm_num) h1) h2
    rw [if_pos h0]
  refine ⟨key, rfl, rfl, rfl, rfl, rfl, rfl, rfl, ?_⟩
  intro t hcat hlen
  rw [key t, hcat, hlen]
  norm_num [specCategoryMultiplier]

/-- Witness for C9 on a three-objective skilling task. -/
theorem estimateEpisodeSteps_formula_witness :
    skillingTask3.category = .skilling ∧ skillingTask3.objectives.length = 3 ∧
    estimateEpisodeSteps skillingTask3 = 6000 :=
  ⟨rfl, rfl, estimateEpisodeSteps_formula.2.2.2.2.2.2.2.2 skillingTask3 rfl rfl⟩

/-- C10: the difficulty heuristic only ever yields ADVANCED, INTERMEDIATE
or BEGINNER, so no Task returned by `parse_task` has difficulty EXPERT. -/
theorem parseTask_never_expert (d : String) (t : Task)
    (h : parseTask d = .ok t) : t.difficulty ≠ .expert := by
  obtain ⟨os, hos, rfl⟩ := parseTask_ok h
  exact determineDifficulty_ne_expert _ _

/-- Witness for C10 at the empty description. -/
theorem parseTask_never_expert_witness :
    parseTask "" = .ok taskEmpty ∧ taskEmpty.difficulty ≠ .expert :=
  ⟨rfl, parseTask_never_expert "" taskEmpty rfl⟩

end OsrsRl
